import Mathlib

/-!
Verification of the contact-book program `contacts_bot.py`.

The Python source is shallowly embedded: classes become structures, methods
become functions, in-place mutation becomes explicit state passing, and a
raised exception becomes an `Except`/paired-state result.  Dates are modelled
by a proleptic-Gregorian calendar exactly as CPython's `datetime.date`
implements it (same ordinal formula, same weekday convention, same field
validation ranges).
-/

/-! ## Character and digit-string helpers (model of CPython string/int behavior) -/

/-- Numeric value of a digit character (model of what `int()` does per char). -/
def charVal (c : Char) : Nat := c.toNat - 48

/-- The decimal digit character for a value below ten. -/
def digChar (n : Nat) : Char :=
  match n with
  | 0 => '0'
  | 1 => '1'
  | 2 => '2'
  | 3 => '3'
  | 4 => '4'
  | 5 => '5'
  | 6 => '6'
  | 7 => '7'
  | 8 => '8'
  | _ => '9'

/-- Value of a decimal digit string (model of `int()` on a digit string). -/
def parseNat (l : List Char) : Nat := l.foldl (fun a c => 10 * a + charVal c) 0

/-- Zero-padded two-digit rendering, the `%d` / `%m` fields of `strftime`. -/
def pad2 (n : Nat) : List Char := [digChar (n / 10 % 10), digChar (n % 10)]

/-- Zero-padded four-digit rendering, the `%Y` field of `strftime`
(zero-padded to width four, as the `DD.MM.YYYY` format intends). -/
def pad4 (n : Nat) : List Char :=
  [digChar (n / 1000 % 10), digChar (n / 100 % 10), digChar (n / 10 % 10), digChar (n % 10)]

/-- Split a character list on the dot separator
(the field structure that `strptime` imposes on a `DD.MM.YYYY` pattern). -/
def splitDots : List Char → List (List Char)
  | [] => [[]]
  | c :: cs =>
    if c = '.' then [] :: splitDots cs
    else
      match splitDots cs with
      | [] => [[c]]
      | p :: ps => (c :: p) :: ps

/-- Model of Python `str.isdigit` restricted to the ASCII range: nonempty and
every character a decimal digit.  (Python's full Unicode `isdigit` also accepts
some non-ASCII digit characters; the program only meets ASCII input.) -/
def pyIsdigit (s : String) : Bool := !s.data.isEmpty && s.data.all Char.isDigit

/-- Model of Python `str.isalpha` restricted to the ASCII range: nonempty and
every character a letter. -/
def pyIsalpha (s : String) : Bool := !s.data.isEmpty && s.data.all Char.isAlpha

/-! ## Calendar (model of `datetime.date`) -/

/-- A calendar date, as the `year`/`month`/`day` fields of `datetime.date`. -/
structure Date where
  year : Nat
  month : Nat
  day : Nat
deriving DecidableEq, Repr

/-- Gregorian leap year, as `datetime._is_leap`. -/
def isLeap (y : Nat) : Bool := y % 4 == 0 && (y % 100 != 0 || y % 400 == 0)

/-- Days in a month, as `datetime._days_in_month`. -/
def daysInMonth (y m : Nat) : Nat :=
  if m = 2 then (if isLeap y then 29 else 28)
  else if m = 4 ∨ m = 6 ∨ m = 9 ∨ m = 11 then 30
  else 31

/-- Days in the months strictly before month `m`, as `datetime._days_before_month`. -/
def daysBeforeMonth (y : Nat) : Nat → Nat
  | 0 => 0
  | 1 => 0
  | m + 2 => daysBeforeMonth y (m + 1) + daysInMonth y (m + 1)

/-- Proleptic-Gregorian ordinal (day 1 = 0001-01-01), as `date.toordinal`. -/
def Date.toordinal (d : Date) : Nat :=
  365 * (d.year - 1) + (d.year - 1) / 4 - (d.year - 1) / 100 + (d.year - 1) / 400
    + daysBeforeMonth d.year d.month + d.day

/-- Day of week with Monday = 0 .. Sunday = 6, as `date.weekday`. -/
def Date.weekday (d : Date) : Nat := (d.toordinal + 6) % 7

/-- Python date comparison: lexicographic on (year, month, day). -/
def Date.lt (a b : Date) : Bool :=
  a.year < b.year ∨ (a.year = b.year ∧ (a.month < b.month ∨ (a.month = b.month ∧ a.day < b.day)))

/-- The field check of the `datetime.date` constructor (`_check_date_fields`):
year within MINYEAR..MAXYEAR, month 1..12, day 1..days-in-month. -/
def Date.valid (d : Date) : Bool :=
  1 ≤ d.year && d.year ≤ 9999 && 1 ≤ d.month && d.month ≤ 12
    && 1 ≤ d.day && d.day ≤ daysInMonth d.year d.month

/-- `date.replace(year=y)`: rebuild the date with a new year, re-running the
constructor's field check; `none` models the `ValueError` raised when the
resulting fields are invalid (e.g. Feb 29 mapped into a non-leap year). -/
def Date.replaceYear (d : Date) (y : Nat) : Option Date :=
  if Date.valid ⟨y, d.month, d.day⟩ then some ⟨y, d.month, d.day⟩ else none

/-- The day after `d` (model of adding one `timedelta(days=1)`). -/
def Date.next (d : Date) : Date :=
  if d.day < daysInMonth d.year d.month then ⟨d.year, d.month, d.day + 1⟩
  else if d.month < 12 then ⟨d.year, d.month + 1, 1⟩
  else ⟨d.year + 1, 1, 1⟩

/-- `d + timedelta(days=n)` for a nonnegative day count. -/
def Date.addDays (d : Date) : Nat → Date
  | 0 => d
  | n + 1 => (Date.addDays d n).next

/-- `strftime("%d.%m.%Y")`: zero-padded day.month.year. -/
def fmtDMY (d : Date) : String :=
  String.mk (pad2 d.day ++ '.' :: (pad2 d.month ++ '.' :: pad4 d.year))

/-- `strftime("%Y.%m.%d")`: zero-padded year.month.day. -/
def fmtYMD (d : Date) : String :=
  String.mk (pad4 d.year ++ '.' :: (pad2 d.month ++ '.' :: pad2 d.day))

/-! ## Exceptions -/

/-- The exception kinds the program raises, each carrying its message
(`ValidationException`, `KeyError`, `IndexError` from the handlers, and
`ValueError` escaping from `datetime`). -/
inductive PyExc where
  | validation (msg : String)
  | keyError (msg : String)
  | indexError (msg : String)
  | valueError (msg : String)
deriving DecidableEq, Repr

/-- Python `str(e)` on an exception: the message itself, except that
`str` of a `KeyError` is the `repr` of its argument, i.e. the message
wrapped in single quotes. -/
def strExc : PyExc → String
  | .validation m => m
  | .keyError m => String.mk ('\'' :: m.data ++ ['\''])
  | .indexError m => m
  | .valueError m => m

/-! ## Validated fields (`Name`, `Phone`, `Birthday`) -/

/-- The `Phone` field: a wrapper around the stored string value. -/
structure Phone where
  value : String
deriving DecidableEq, Repr

/-- `Phone.__init__`: store the value, then `validate_phone` — raise
`ValidationException` unless the string `isdigit()` and has length 10. -/
def Phone.new (value : String) : Except PyExc Phone :=
  if !pyIsdigit value || value.length ≠ 10 then
    .error (.validation "Phone number must be 10 digits")
  else .ok ⟨value⟩

/-- `Name.__init__`: store the value, then `validate_name` — raise
`ValidationException` unless the string `isalpha()`.  The result is the
stored string value. -/
def Name.new (value : String) : Except PyExc String :=
  if !pyIsalpha value then .error (.validation "Name must contain only letters")
  else .ok value

/-- `Birthday.__init__`: `datetime.strptime(value, "%d.%m.%Y").date()`, any
`ValueError` converted to `ValidationException`.  The `strptime` pattern
demands day and month fields of one or two digits with values in 1..31 and
1..12 respectively, a literal dot between fields, an exactly-four-digit year,
and nothing else; the `datetime` constructor then checks the full calendar
validity of the fields.  The per-field checks live in `parseFields`,
the dot-splitting in `Birthday.new` itself. -/
def parseFields (ds ms ys : List Char) : Except PyExc Date :=
  if !ds.isEmpty && ds.length ≤ 2 && ds.all Char.isDigit
      && 1 ≤ parseNat ds && parseNat ds ≤ 31
      && !ms.isEmpty && ms.length ≤ 2 && ms.all Char.isDigit
      && 1 ≤ parseNat ms && parseNat ms ≤ 12
      && ys.length = 4 && ys.all Char.isDigit then
    if Date.valid ⟨parseNat ys, parseNat ms, parseNat ds⟩ then
      .ok ⟨parseNat ys, parseNat ms, parseNat ds⟩
    else .error (.validation "Invalid date format. Use DD.MM.YYYY")
  else .error (.validation "Invalid date format. Use DD.MM.YYYY")

/-- `Birthday.__init__` proper: split on the literal dots and check the
three fields. -/
def Birthday.new (value : String) : Except PyExc Date :=
  match splitDots value.data with
  | [ds, ms, ys] => parseFields ds ms ys
  | _ => .error (.validation "Invalid date format. Use DD.MM.YYYY")

/-! ## `Record` -/

/-- A contact record: the name's stored value, the stored values of the phone
list (phone objects are pure value wrappers, and `edit_phone` mutates the
stored value to an arbitrary string, so values are kept as plain strings),
and the optional birthday date. -/
structure Record where
  name : String
  phones : List String
  birthday : Option Date
deriving DecidableEq, Repr

/-- `Record.__init__`: validate the name, start with no phones, no birthday. -/
def Record.new (name : String) : Except PyExc Record :=
  match Name.new name with
  | .error e => .error e
  | .ok v => .ok ⟨v, [], none⟩

/-- `Record.add_phone`: construct (validate) a `Phone` and append it. -/
def Record.add_phone (r : Record) (phone : String) : Except PyExc Record :=
  match Phone.new phone with
  | .error e => .error e
  | .ok p => .ok ⟨r.name, r.phones ++ [p.value], r.birthday⟩

/-- The loop of `Record.edit_phone`: replace the first value equal to
`old` with `new`; `none` when no value matches. -/
def editList : List String → String → String → Option (List String)
  | [], _, _ => none
  | p :: ps, old, new =>
    if p = old then some (new :: ps)
    else (editList ps old new).map (fun l => p :: l)

/-- `Record.edit_phone`: replace the first phone whose value equals
`old_phone` with `new_phone` — no re-validation of `new_phone` — and raise
`ValidationException` when no phone matches. -/
def Record.edit_phone (r : Record) (old_phone new_phone : String) : Except PyExc Record :=
  match editList r.phones old_phone new_phone with
  | some ps => .ok ⟨r.name, ps, r.birthday⟩
  | none => .error (.validation "Phone number not found")

/-- `Record.add_birthday`: construct (validate) a `Birthday` and set it. -/
def Record.add_birthday (r : Record) (birthday : String) : Except PyExc Record :=
  match Birthday.new birthday with
  | .error e => .error e
  | .ok d => .ok ⟨r.name, r.phones, some d⟩

/-- `Record.show_birthday`: `strftime("%d.%m.%Y")` of the birthday, or the
sentinel text when unset. -/
def Record.show_birthday (r : Record) : String :=
  match r.birthday with
  | some d => fmtDMY d
  | none => "Birthday not set"

/-! ## `AddressBook` -/

/-- The address book: a `dict` from name to record, modelled as an
insertion-ordered association list with unique keys. -/
structure AddressBook where
  data : List (String × Record)
deriving DecidableEq, Repr

/-- `dict` lookup (`self.data.get(name)`). -/
def dictGet : List (String × Record) → String → Option Record
  | [], _ => none
  | (k, v) :: rest, name => if k = name then some v else dictGet rest name

/-- `dict` assignment (`self.data[key] = record`): overwrite in place when the
key exists, append otherwise. -/
def dictSet : List (String × Record) → String → Record → List (String × Record)
  | [], key, v => [(key, v)]
  | (k, w) :: rest, key, v =>
    if k = key then (key, v) :: rest else (k, w) :: dictSet rest key v

/-- `AddressBook.find`. -/
def AddressBook.find (book : AddressBook) (name : String) : Option Record :=
  dictGet book.data name

/-- `AddressBook.add_record`: keyed by the record's name value. -/
def AddressBook.add_record (book : AddressBook) (r : Record) : AddressBook :=
  ⟨dictSet book.data r.name r⟩

/-- One emitted element of `get_upcoming_birthdays`:
the dict `{"name": ..., "birthday": ..., "congratulation_date": ...}`. -/
structure UpcomingEntry where
  name : String
  birthday : String
  congratulation_date : String
deriving DecidableEq, Repr

/-- Lines 105–109 of the source: map the birthday onto the current year, and
advance it one year when it falls strictly before today.  Either `replace`
can raise (Feb 29 into a non-leap year); the error is a `ValueError` escaping
from `datetime` (message abstracted, the program never inspects it). -/
def thisYearBirthday (today b : Date) : Except PyExc Date :=
  match b.replaceYear today.year with
  | none => .error (.valueError "day is out of range for month")
  | some t0 =>
    if Date.lt t0 today then
      match t0.replaceYear (today.year + 1) with
      | none => .error (.valueError "day is out of range for month")
      | some t1 => .ok t1
    else .ok t0

/-- `(this_year_birthday - today).days`. -/
def daysUntil (today tyb : Date) : Int := (tyb.toordinal : Int) - (today.toordinal : Int)

/-- Lines 112–117: the congratulation date, shifted off a weekend —
Saturday (weekday 5) moves two days to Monday, Sunday (weekday 6) one day. -/
def congratulationDate (tyb : Date) : Date :=
  if tyb.weekday = 5 then tyb.addDays 2
  else if tyb.weekday = 6 then tyb.addDays 1
  else tyb

/-- The body of the `get_upcoming_birthdays` loop for one record: skip records
without a birthday, compute the adjusted this-year birthday (propagating a
date-construction fault), and emit an entry when today-to-birthday is within
0..7 days.  Note the source formats the *congratulation* date into both the
`birthday` field (as `%d.%m.%Y`) and the `congratulation_date` field
(as `%Y.%m.%d`). -/
def birthdayUpcoming (today : Date) (name : String) (b : Date) :
    Except PyExc (Option UpcomingEntry) :=
  match thisYearBirthday today b with
  | .error e => .error e
  | .ok tyb =>
    if 0 ≤ daysUntil today tyb ∧ daysUntil today tyb ≤ 7 then
      .ok (some ⟨name, fmtDMY (congratulationDate tyb), fmtYMD (congratulationDate tyb)⟩)
    else .ok none

def recordUpcoming (today : Date) (r : Record) : Except PyExc (Option UpcomingEntry) :=
  match r.birthday with
  | none => .ok none
  | some b => birthdayUpcoming today r.name b

/-- The `get_upcoming_birthdays` loop over the dict's values, collecting
entries in order; a fault in any record aborts the whole call. -/
def upcomingAux (today : Date) : List Record → Except PyExc (List UpcomingEntry)
  | [] => .ok []
  | r :: rest =>
    match recordUpcoming today r with
    | .error e => .error e
    | .ok none => upcomingAux today rest
    | .ok (some e) => Except.map (fun es => e :: es) (upcomingAux today rest)

/-- `AddressBook.get_upcoming_birthdays` with `datetime.now().date()` made an
explicit `today` parameter. -/
def AddressBook.get_upcoming_birthdays (book : AddressBook) (today : Date) :
    Except PyExc (List UpcomingEntry) :=
  upcomingAux today (book.data.map Prod.snd)

/-- The tail of `add_contact` shared by both branches: `if phone:` (a provided
empty string counts as absent) then `record.add_phone(phone)` — the in-place
mutation of the record is reflected by re-storing it at its dict key.  The
pair returned is the book state after the call and the message or the
exception escaping from phone validation. -/
def addContactPhone (book : AddressBook) (name : String) (r : Record) (message : String)
    (phone : Option String) : AddressBook × Except PyExc String :=
  match phone with
  | none => (book, .ok message)
  | some p =>
    if p = "" then (book, .ok message)
    else
      match r.add_phone p with
      | .error e => (book, .error e)
      | .ok r2 => (⟨dictSet book.data name r2⟩, .ok message)

/-- `AddressBook.add_contact`: when no record exists, construct one (name
validation can raise, leaving the book untouched) and insert it *before* the
phone is validated; when one exists, reuse it.  Returns the final book state
together with the message, or with the exception when one is raised. -/
def AddressBook.add_contact (book : AddressBook) (name : String) (phone : Option String) :
    AddressBook × Except PyExc String :=
  match dictGet book.data name with
  | none =>
    match Record.new name with
    | .error e => (book, .error e)
    | .ok r => addContactPhone ⟨dictSet book.data name r⟩ name r "Contact added." phone
  | some r => addContactPhone book name r "Contact updated." phone

/-- `AddressBook.show_phone`: `KeyError` when the name is absent, else the
"; "-joined phone values. -/
def AddressBook.show_phone (book : AddressBook) (name : String) : Except PyExc String :=
  match dictGet book.data name with
  | none => .error (.keyError "Contact not found.")
  | some r => .ok (String.intercalate "; " r.phones)

/-! ## Handlers and the `input_error` decorator -/

/-- The `input_error` decorator: call the wrapped function and return its
result, converting any raised exception into `str(e)`.  Handlers are modelled
uniformly as state transformers returning the book state paired with either
the result string or the raised exception. -/
def input_error {α : Type} (f : α → AddressBook × Except PyExc String)
    (x : α) : AddressBook × String :=
  match f x with
  | (b, .ok s) => (b, s)
  | (b, .error e) => (b, strExc e)

/-- `handle_show_phone`: argument-count check, then `book.show_phone`. -/
def handle_show_phone (args : List String) (book : AddressBook) :
    AddressBook × Except PyExc String :=
  match args with
  | [name] =>
    match book.show_phone name with
    | .ok s => (book, .ok s)
    | .error e => (book, .error e)
  | _ => (book, .error (.indexError "Please provide contact name."))

/-- `handle_add_birthday`: argument-count check, find the record (`KeyError`
when absent), `record.add_birthday(date)` mutating the stored record. -/
def handle_add_birthday (args : List String) (book : AddressBook) :
    AddressBook × Except PyExc String :=
  match args with
  | [name, date] =>
    match dictGet book.data name with
    | none => (book, .error (.keyError "Contact not found."))
    | some r =>
      match r.add_birthday date with
      | .error e => (book, .error e)
      | .ok r2 => (⟨dictSet book.data name r2⟩, .ok "Birthday added")
  | _ => (book, .error (.indexError "Please provide contact name and birthday date."))

/-- The pure per-record projection of `recordUpcoming`: the entry a record
contributes when the call completes without a fault. -/
def entryOf (today : Date) (r : Record) : Option UpcomingEntry :=
  match recordUpcoming today r with
  | .ok o => o
  | .error _ => none

/-! ## Spec-side predicates and concrete states used as witnesses -/

deriving instance DecidableEq for Except

/-- The spec's phone rule: the value consists solely of decimal digits and
has length exactly ten. -/
def phoneRule (p : String) : Prop := (∀ c ∈ p.data, c.isDigit = true) ∧ p.length = 10

instance phoneRuleDecidable (p : String) : Decidable (phoneRule p) := by
  unfold phoneRule
  infer_instance

/-- The phones `add_contact` ends up appending: none when the argument is
absent or empty (Python's `if phone:`), else the single provided value. -/
def providedPhones : Option String → List String
  | none => []
  | some p => if p = "" then [] else [p]

/-- A book whose single record's this-year birthday (2024-06-08, from today
2024-06-05) falls on a Saturday. -/
def bookSat : AddressBook := ⟨[("Ann", ⟨"Ann", [], some ⟨1990, 6, 8⟩⟩)]⟩

/-- A book whose single record's this-year birthday (2024-06-09) falls on a
Sunday. -/
def bookSun : AddressBook := ⟨[("Bob", ⟨"Bob", [], some ⟨1990, 6, 9⟩⟩)]⟩

/-- A book whose single record's birthday falls on today (2024-06-05). -/
def bookToday : AddressBook := ⟨[("Ann", ⟨"Ann", [], some ⟨1990, 6, 5⟩⟩)]⟩

/-- A book whose single record's birthday falls eight days after 2024-06-05. -/
def bookEight : AddressBook := ⟨[("Ann", ⟨"Ann", [], some ⟨1990, 6, 13⟩⟩)]⟩

/-! ## Helper lemmas: digit strings -/

theorem charVal_digChar {n : Nat} (h : n < 10) : charVal (digChar n) = n := by
  interval_cases n <;> rfl

theorem isDigit_digChar {n : Nat} (h : n < 10) : (digChar n).isDigit = true := by
  interval_cases n <;> rfl

theorem digChar_ne_dot (n : Nat) : digChar n ≠ '.' := by
  unfold digChar
  split <;> decide

theorem dot_not_mem_pad2 (n : Nat) : '.' ∉ pad2 n := by
  intro h
  rcases (by simpa [pad2] using h : _ ∨ _) with h1 | h1 <;> exact digChar_ne_dot _ h1.symm

theorem dot_not_mem_pad4 (n : Nat) : '.' ∉ pad4 n := by
  intro h
  rcases (by simpa [pad4] using h : _ ∨ _ ∨ _ ∨ _) with h1 | h1 | h1 | h1 <;>
    exact digChar_ne_dot _ h1.symm

theorem parseNat_pad2 {n : Nat} (h : n < 100) : parseNat (pad2 n) = n := by
  have h1 : n / 10 % 10 < 10 := Nat.mod_lt _ (by omega)
  have h2 : n % 10 < 10 := Nat.mod_lt _ (by omega)
  simp only [parseNat, pad2, List.foldl, charVal_digChar h1, charVal_digChar h2]
  omega

theorem parseNat_pad4 {n : Nat} (h : n < 10000) : parseNat (pad4 n) = n := by
  have h1 : n / 1000 % 10 < 10 := Nat.mod_lt _ (by omega)
  have h2 : n / 100 % 10 < 10 := Nat.mod_lt _ (by omega)
  have h3 : n / 10 % 10 < 10 := Nat.mod_lt _ (by omega)
  have h4 : n % 10 < 10 := Nat.mod_lt _ (by omega)
  simp only [parseNat, pad4, List.foldl, charVal_digChar h1, charVal_digChar h2,
    charVal_digChar h3, charVal_digChar h4]
  omega

theorem all_isDigit_pad2 (n : Nat) : (pad2 n).all Char.isDigit = true := by
  have h1 : n / 10 % 10 < 10 := Nat.mod_lt _ (by omega)
  have h2 : n % 10 < 10 := Nat.mod_lt _ (by omega)
  simp [pad2, isDigit_digChar h1, isDigit_digChar h2]

theorem all_isDigit_pad4 (n : Nat) : (pad4 n).all Char.isDigit = true := by
  have h1 : n / 1000 % 10 < 10 := Nat.mod_lt _ (by omega)
  have h2 : n / 100 % 10 < 10 := Nat.mod_lt _ (by omega)
  have h3 : n / 10 % 10 < 10 := Nat.mod_lt _ (by omega)
  have h4 : n % 10 < 10 := Nat.mod_lt _ (by omega)
  simp [pad4, isDigit_digChar h1, isDigit_digChar h2, isDigit_digChar h3, isDigit_digChar h4]

/-! ## Helper lemmas: splitting on dots -/

theorem splitDots_no_dot {l : List Char} (h : '.' ∉ l) : splitDots l = [l] := by
  induction l with
  | nil => rfl
  | cons c cs ih =>
    have hc : ¬c = '.' := fun hh => h (hh ▸ List.mem_cons_self c cs)
    have hcs : '.' ∉ cs := fun hm => h (List.mem_cons_of_mem c hm)
    simp [splitDots, hc, ih hcs]

theorem splitDots_append {l : List Char} (h : '.' ∉ l) (rest : List Char) :
    splitDots (l ++ '.' :: rest) = l :: splitDots rest := by
  induction l with
  | nil => simp [splitDots]
  | cons c cs ih =>
    have hc : ¬c = '.' := fun hh => h (hh ▸ List.mem_cons_self c cs)
    have hcs : '.' ∉ cs := fun hm => h (List.mem_cons_of_mem c hm)
    have hrec := ih hcs
    simp only [List.cons_append, splitDots, hc, if_false, List.append_eq]
    rw [hrec]

/-! ## Helper lemmas: calendar and fields -/

theorem daysInMonth_le_31 (y m : Nat) : daysInMonth y m ≤ 31 := by
  unfold daysInMonth
  split
  · split <;> omega
  · split <;> omega

theorem pyIsdigit_true_iff (p : String) :
    pyIsdigit p = true ↔ p.data ≠ [] ∧ ∀ c ∈ p.data, c.isDigit = true := by
  unfold pyIsdigit
  rw [Bool.and_eq_true, Bool.not_eq_true', List.isEmpty_eq_false, List.all_eq_true]

theorem phone_cond (p : String) :
    (!pyIsdigit p || p.length ≠ 10) = false ↔ phoneRule p := by
  have hlen : p.length = p.data.length := rfl
  rw [Bool.or_eq_false_iff, decide_eq_false_iff_not, not_not]
  unfold phoneRule
  constructor
  · rintro ⟨h1, h2⟩
    have h3 : pyIsdigit p = true := by
      cases hb : pyIsdigit p with
      | false => rw [hb] at h1; cases h1
      | true => rfl
    exact ⟨((pyIsdigit_true_iff p).mp h3).2, h2⟩
  · rintro ⟨h1, h2⟩
    have hne : p.data ≠ [] := by
      intro hnil
      rw [hlen, hnil] at h2
      cases h2
    have h3 : pyIsdigit p = true := (pyIsdigit_true_iff p).mpr ⟨hne, h1⟩
    exact ⟨by rw [h3]; rfl, h2⟩

theorem phone_new_ok {p : String} (h : phoneRule p) : Phone.new p = .ok ⟨p⟩ := by
  have hc := (phone_cond p).mpr h
  unfold Phone.new
  rw [hc]
  simp

theorem phone_new_fail {p : String} (h : ¬phoneRule p) :
    Phone.new p = .error (.validation "Phone number must be 10 digits") := by
  have hc : (!pyIsdigit p || p.length ≠ 10) = true := by
    cases hb : (!pyIsdigit p || p.length ≠ 10) with
    | false => exact absurd ((phone_cond p).mp hb) h
    | true => rfl
  unfold Phone.new
  rw [hc]
  simp

theorem dictGet_dictSet_self (l : List (String × Record)) (k : String) (v : Record) :
    dictGet (dictSet l k v) k = some v := by
  induction l with
  | nil => simp [dictSet, dictGet]
  | cons p rest ih =>
    rcases p with ⟨k1, v1⟩
    by_cases h : k1 = k
    · simp [dictSet, dictGet, h]
    · simp [dictSet, dictGet, h, ih]

theorem editList_first {l1 l2 : List String} {old : String} (hfirst : old ∉ l1) (new : String) :
    editList (l1 ++ old :: l2) old new = some (l1 ++ new :: l2) := by
  induction l1 with
  | nil => simp [editList]
  | cons p ps ih =>
    have hp : ¬p = old := fun hh => hfirst (hh ▸ List.mem_cons_self p ps)
    have hps : old ∉ ps := fun hm => hfirst (List.mem_cons_of_mem p hm)
    simp [editList, hp, ih hps]

theorem keys_nodup_eq {l : List (String × Record)} (hnd : (l.map Prod.fst).Nodup)
    {k : String} {a b : Record} (ha : (k, a) ∈ l) (hb : (k, b) ∈ l) : a = b := by
  induction l with
  | nil => cases ha
  | cons p rest ih =>
    rw [List.map_cons, List.nodup_cons] at hnd
    rcases List.mem_cons.mp ha with h1 | h1
    · rcases List.mem_cons.mp hb with h2 | h2
      · have h3 : ((k, a) : String × Record) = (k, b) := h1.trans h2.symm
        injection h3 with h4 h5
      · exfalso
        rw [← h1] at hnd
        exact hnd.1 (List.mem_map.mpr ⟨(k, b), h2, rfl⟩)
    · rcases List.mem_cons.mp hb with h2 | h2
      · exfalso
        rw [← h2] at hnd
        exact hnd.1 (List.mem_map.mpr ⟨(k, a), h1, rfl⟩)
      · exact ih hnd.2 h1 h2

/-! ## Helper lemmas: birthday parsing and formatting -/

theorem birthday_new_valid {s : String} {d : Date} (h : Birthday.new s = .ok d) :
    d.valid = true := by
  unfold Birthday.new at h
  split at h
  · unfold parseFields at h
    split at h
    · split at h
      · next hv =>
        injection h with h2
        rw [← h2]
        exact hv
      · cases h
    · cases h
  · cases h

theorem birthday_parse_fmt {d : Date} (hv : d.valid = true) :
    Birthday.new (fmtDMY d) = .ok d := by
  have hvp := hv
  simp only [Date.valid, Bool.and_eq_true, decide_eq_true_eq] at hvp
  obtain ⟨⟨⟨⟨⟨h1, h2⟩, h3⟩, h4⟩, h5⟩, h6⟩ := hvp
  have hd100 : d.day < 100 := by
    have := daysInMonth_le_31 d.year d.month
    omega
  have hm100 : d.month < 100 := by omega
  have hy10000 : d.year < 10000 := by omega
  have hdata : (fmtDMY d).data = pad2 d.day ++ '.' :: (pad2 d.month ++ '.' :: pad4 d.year) := rfl
  unfold Birthday.new
  rw [hdata, splitDots_append (dot_not_mem_pad2 _), splitDots_append (dot_not_mem_pad2 _),
    splitDots_no_dot (dot_not_mem_pad4 _)]
  have hcond : (!(pad2 d.day).isEmpty && (pad2 d.day).length ≤ 2 && (pad2 d.day).all Char.isDigit
      && 1 ≤ parseNat (pad2 d.day) && parseNat (pad2 d.day) ≤ 31
      && !(pad2 d.month).isEmpty && (pad2 d.month).length ≤ 2 && (pad2 d.month).all Char.isDigit
      && 1 ≤ parseNat (pad2 d.month) && parseNat (pad2 d.month) ≤ 12
      && (pad4 d.year).length = 4 && (pad4 d.year).all Char.isDigit) = true := by
    rw [parseNat_pad2 hd100, parseNat_pad2 hm100]
    simp only [Bool.and_eq_true, decide_eq_true_eq]
    refine ⟨⟨⟨⟨⟨⟨⟨⟨⟨⟨⟨?_, ?_⟩, ?_⟩, ?_⟩, ?_⟩, ?_⟩, ?_⟩, ?_⟩, ?_⟩, ?_⟩, ?_⟩, ?_⟩
    · simp [pad2]
    · simp [pad2]
    · exact all_isDigit_pad2 _
    · exact h5
    · have := daysInMonth_le_31 d.year d.month
      omega
    · simp [pad2]
    · simp [pad2]
    · exact all_isDigit_pad2 _
    · exact h3
    · exact h4
    · simp [pad4]
    · exact all_isDigit_pad4 _
  have hvd : Date.valid ⟨parseNat (pad4 d.year), parseNat (pad2 d.month),
      parseNat (pad2 d.day)⟩ = true := by
    rw [parseNat_pad2 hd100, parseNat_pad2 hm100, parseNat_pad4 hy10000]
    exact hv
  show parseFields (pad2 d.day) (pad2 d.month) (pad4 d.year) = Except.ok d
  unfold parseFields
  rw [hcond, hvd]
  simp only [if_true]
  rw [parseNat_pad2 hd100, parseNat_pad2 hm100, parseNat_pad4 hy10000]

/-! ## Helper lemmas: the upcoming-birthday computation -/

theorem upcomingAux_ok {today : Date} {l : List Record} {es : List UpcomingEntry}
    (h : upcomingAux today l = .ok es) : es = l.filterMap (entryOf today) := by
  induction l generalizing es with
  | nil =>
    unfold upcomingAux at h
    injection h with h2
    rw [← h2]
    rfl
  | cons r rest ih =>
    unfold upcomingAux at h
    rcases hr : recordUpcoming today r with e | o
    · rw [hr] at h
      cases h
    · rw [hr] at h
      have hent : entryOf today r = o := by
        unfold entryOf
        rw [hr]
      rcases o with _ | entry
      · rw [List.filterMap_cons, hent]
        exact ih h
      · rcases haux : upcomingAux today rest with e2 | es2
        · rw [haux] at h
          cases h
        · rw [haux] at h
          injection h with h2
          rw [← h2, List.filterMap_cons, hent, ih haux]

theorem recordUpcoming_none {today : Date} {r : Record} (h : r.birthday = none) :
    recordUpcoming today r = .ok none := by
  unfold recordUpcoming
  rw [h]

theorem recordUpcoming_some {today : Date} {r : Record} {b : Date} (h : r.birthday = some b) :
    recordUpcoming today r = birthdayUpcoming today r.name b := by
  unfold recordUpcoming
  rw [h]

theorem birthdayUpcoming_ok {today : Date} {name : String} {b tyb : Date}
    (ht : thisYearBirthday today b = .ok tyb) :
    birthdayUpcoming today name b =
      if 0 ≤ daysUntil today tyb ∧ daysUntil today tyb ≤ 7 then
        .ok (some ⟨name, fmtDMY (congratulationDate tyb), fmtYMD (congratulationDate tyb)⟩)
      else .ok none := by
  unfold birthdayUpcoming
  rw [ht]

theorem birthdayUpcoming_err {today : Date} {name : String} {b : Date} {e : PyExc}
    (ht : thisYearBirthday today b = .error e) :
    birthdayUpcoming today name b = .error e := by
  unfold birthdayUpcoming
  rw [ht]

theorem entryOf_ok {today : Date} {r : Record} {o : Option UpcomingEntry}
    (h : recordUpcoming today r = .ok o) : entryOf today r = o := by
  unfold entryOf
  rw [h]

theorem entryOf_err {today : Date} {r : Record} {e : PyExc}
    (h : recordUpcoming today r = .error e) : entryOf today r = none := by
  unfold entryOf
  rw [h]

theorem entryOf_some {today : Date} {r : Record} {e : UpcomingEntry}
    (h : entryOf today r = some e) :
    ∃ b tyb, r.birthday = some b ∧ thisYearBirthday today b = .ok tyb ∧
      0 ≤ daysUntil today tyb ∧ daysUntil today tyb ≤ 7 ∧
      e = ⟨r.name, fmtDMY (congratulationDate tyb), fmtYMD (congratulationDate tyb)⟩ := by
  rcases hb : r.birthday with _ | b
  · rw [entryOf_ok (recordUpcoming_none hb)] at h
    cases h
  · rcases ht : thisYearBirthday today b with e2 | tyb
    · rw [entryOf_err ((recordUpcoming_some hb).trans (birthdayUpcoming_err ht))] at h
      cases h
    · have hru := (recordUpcoming_some hb).trans (birthdayUpcoming_ok ht)
      by_cases hw : 0 ≤ daysUntil today tyb ∧ daysUntil today tyb ≤ 7
      · rw [if_pos hw] at hru
        rw [entryOf_ok hru] at h
        exact ⟨b, tyb, rfl, ht, hw.1, hw.2, (Option.some.inj h).symm⟩
      · rw [if_neg hw] at hru
        rw [entryOf_ok hru] at h
        cases h

theorem entryOf_eq_if {today : Date} {r : Record} {b tyb : Date}
    (hb : r.birthday = some b) (ht : thisYearBirthday today b = .ok tyb) :
    entryOf today r = if 0 ≤ daysUntil today tyb ∧ daysUntil today tyb ≤ 7
      then some ⟨r.name, fmtDMY (congratulationDate tyb), fmtYMD (congratulationDate tyb)⟩
      else none := by
  have hru := (recordUpcoming_some hb).trans (birthdayUpcoming_ok ht)
  by_cases hw : 0 ≤ daysUntil today tyb ∧ daysUntil today tyb ≤ 7
  · rw [if_pos hw] at hru
    rw [entryOf_ok hru, if_pos hw]
  · rw [if_neg hw] at hru
    rw [entryOf_ok hru, if_neg hw]

theorem upcoming_mem_inv {book : AddressBook} {today : Date} {es : List UpcomingEntry}
    {e : UpcomingEntry} (hok : book.get_upcoming_birthdays today = .ok es) (he : e ∈ es) :
    ∃ k r b tyb, (k, r) ∈ book.data ∧ r.birthday = some b ∧
      thisYearBirthday today b = .ok tyb ∧
      0 ≤ daysUntil today tyb ∧ daysUntil today tyb ≤ 7 ∧
      e = ⟨r.name, fmtDMY (congratulationDate tyb), fmtYMD (congratulationDate tyb)⟩ := by
  rw [upcomingAux_ok hok] at he
  rcases List.mem_filterMap.mp he with ⟨r2, hr2, hsome⟩
  rcases List.mem_map.mp hr2 with ⟨p, hp, hsnd⟩
  obtain ⟨b, tyb, hb, ht, hw1, hw2, hee⟩ := entryOf_some hsome
  refine ⟨p.1, r2, b, tyb, ?_, hb, ht, hw1, hw2, hee⟩
  rw [← hsnd]
  rw [Prod.mk.eta]
  exact hp

/-! ## Helper lemmas: `add_contact` -/

theorem record_new_ok {name : String} (h : pyIsalpha name = true) :
    Record.new name = .ok ⟨name, [], none⟩ := by
  unfold Record.new Name.new
  rw [h]
  rfl

theorem record_new_fail {name : String} (h : pyIsalpha name = false) :
    Record.new name = .error (.validation "Name must contain only letters") := by
  unfold Record.new Name.new
  rw [h]
  rfl

theorem add_phone_ok {r : Record} {p : String} (h : phoneRule p) :
    r.add_phone p = .ok ⟨r.name, r.phones ++ [p], r.birthday⟩ := by
  unfold Record.add_phone
  rw [phone_new_ok h]

theorem add_phone_fail {r : Record} {p : String} (h : ¬phoneRule p) :
    r.add_phone p = .error (.validation "Phone number must be 10 digits") := by
  unfold Record.add_phone
  rw [phone_new_fail h]

theorem add_contact_absent {book : AddressBook} {name : String} {r0 : Record}
    (habs : dictGet book.data name = none) (hrec : Record.new name = .ok r0)
    (phone : Option String) :
    book.add_contact name phone =
      addContactPhone ⟨dictSet book.data name r0⟩ name r0 "Contact added." phone := by
  unfold AddressBook.add_contact
  rw [habs, hrec]

theorem add_contact_absent_badname {book : AddressBook} {name : String} {e : PyExc}
    (habs : dictGet book.data name = none) (hrec : Record.new name = .error e)
    (phone : Option String) :
    book.add_contact name phone = (book, .error e) := by
  unfold AddressBook.add_contact
  rw [habs, hrec]

theorem add_contact_present {book : AddressBook} {name : String} {r : Record}
    (hr : dictGet book.data name = some r) (phone : Option String) :
    book.add_contact name phone = addContactPhone book name r "Contact updated." phone := by
  unfold AddressBook.add_contact
  rw [hr]

theorem addContactPhone_none (book : AddressBook) (name : String) (r : Record) (msg : String) :
    addContactPhone book name r msg none = (book, .ok msg) := rfl

theorem addContactPhone_empty (book : AddressBook) (name : String) (r : Record) (msg : String) :
    addContactPhone book name r msg (some "") = (book, .ok msg) := by
  unfold addContactPhone
  rfl

theorem addContactPhone_valid {p : String} (hp : ¬p = "") {r r2 : Record}
    (hadd : r.add_phone p = .ok r2) (book : AddressBook) (name : String) (msg : String) :
    addContactPhone book name r msg (some p) = (⟨dictSet book.data name r2⟩, .ok msg) := by
  show (if p = "" then (book, Except.ok msg)
    else match r.add_phone p with
      | .error e => (book, .error e)
      | .ok r2 => (⟨dictSet book.data name r2⟩, .ok msg)) =
    ((⟨dictSet book.data name r2⟩ : AddressBook), .ok msg)
  rw [if_neg hp, hadd]

theorem addContactPhone_invalid {p : String} (hp : ¬p = "") {r : Record} {e : PyExc}
    (hadd : r.add_phone p = .error e) (book : AddressBook) (name : String) (msg : String) :
    addContactPhone book name r msg (some p) = (book, .error e) := by
  show (if p = "" then (book, Except.ok msg)
    else match r.add_phone p with
      | .error e => (book, .error e)
      | .ok r2 => (⟨dictSet book.data name r2⟩, .ok msg)) =
    (book, .error e)
  rw [if_neg hp, hadd]

/-! ## Claim theorems -/

/-- C1 counterexample: with today 2024-06-05 and a record whose this-year
birthday 2024-06-08 falls on a Saturday, `get_upcoming_birthdays` emits the
entry whose `birthday` field is "10.06.2024" — the shifted celebration date —
while the unshifted this-year birthday formats as "08.06.2024"; so the
`birthday` field does not hold the unshifted this-year birthday. -/
theorem upcoming_birthday_field_shifted_cex :
    bookSat.get_upcoming_birthdays ⟨2024, 6, 5⟩ =
      .ok [⟨"Ann", "10.06.2024", "2024.06.10"⟩] ∧
    thisYearBirthday ⟨2024, 6, 5⟩ ⟨1990, 6, 8⟩ = .ok ⟨2024, 6, 8⟩ ∧
    fmtDMY ⟨2024, 6, 8⟩ = "08.06.2024" ∧
    ("10.06.2024" : String) ≠ "08.06.2024" :=
  ⟨rfl, rfl, rfl, by decide⟩

/-- C1 (amended): every record emitted by `get_upcoming_birthdays` contains
the contact's name, the *celebration* date formatted DD.MM.YYYY in the
`birthday` field, and the celebration date formatted YYYY.MM.DD in the
`congratulation_date` field; when the celebration date is shifted off a
weekend, the `birthday` field holds the shifted date, not the unshifted
this-year birthday. -/
theorem upcoming_entry_fields (book : AddressBook) (today : Date)
    (es : List UpcomingEntry) (e : UpcomingEntry)
    (hok : book.get_upcoming_birthdays today = .ok es) (he : e ∈ es) :
    ∃ k r b tyb, (k, r) ∈ book.data ∧ r.birthday = some b ∧
      thisYearBirthday today b = .ok tyb ∧
      e.name = r.name ∧
      e.birthday = fmtDMY (congratulationDate tyb) ∧
      e.congratulation_date = fmtYMD (congratulationDate tyb) := by
  obtain ⟨k, r, b, tyb, hmem, hb, ht, _, _, hee⟩ := upcoming_mem_inv hok he
  exact ⟨k, r, b, tyb, hmem, hb, ht, by rw [hee], by rw [hee], by rw [hee]⟩

/-- C1 witness: the amended statement instantiated on the Saturday book. -/
theorem upcoming_entry_fields_witness :
    ∃ k r b tyb, (k, r) ∈ bookSat.data ∧ r.birthday = some b ∧
      thisYearBirthday ⟨2024, 6, 5⟩ b = .ok tyb ∧
      (⟨"Ann", "10.06.2024", "2024.06.10"⟩ : UpcomingEntry).name = r.name ∧
      (⟨"Ann", "10.06.2024", "2024.06.10"⟩ : UpcomingEntry).birthday =
        fmtDMY (congratulationDate tyb) ∧
      (⟨"Ann", "10.06.2024", "2024.06.10"⟩ : UpcomingEntry).congratulation_date =
        fmtYMD (congratulationDate tyb) :=
  upcoming_entry_fields bookSat ⟨2024, 6, 5⟩ [⟨"Ann", "10.06.2024", "2024.06.10"⟩]
    ⟨"Ann", "10.06.2024", "2024.06.10"⟩ rfl (List.mem_singleton.mpr rfl)

/-- C2: when `get_upcoming_birthdays` completes, a record with a birthday and
a constructible adjusted this-year birthday contributes an entry exactly when
the day difference to today lies within 0..7; the dict invariants (unique
keys, records keyed by their own name) are carried as hypotheses. -/
theorem upcoming_window_iff (book : AddressBook) (today : Date)
    (es : List UpcomingEntry) (name : String) (r : Record) (b tyb : Date)
    (hok : book.get_upcoming_birthdays today = .ok es)
    (hmem : (name, r) ∈ book.data)
    (hnd : (book.data.map Prod.fst).Nodup)
    (hkeys : ∀ p ∈ book.data, p.2.name = p.1)
    (hb : r.birthday = some b)
    (hty : thisYearBirthday today b = .ok tyb) :
    (∃ e ∈ es, e.name = name) ↔
      (0 ≤ daysUntil today tyb ∧ daysUntil today tyb ≤ 7) := by
  constructor
  · rintro ⟨e, he, hen⟩
    obtain ⟨k, r2, b2, tyb2, hmem2, hb2, ht2, hw1, hw2, hee⟩ := upcoming_mem_inv hok he
    have hname : r2.name = name := by
      rw [← hen, hee]
    have hkr : r2.name = k := hkeys (k, r2) hmem2
    have hk : k = name := hkr.symm.trans hname
    rw [hk] at hmem2
    have hr2 : r2 = r := keys_nodup_eq hnd hmem2 hmem
    rw [hr2] at hb2
    rw [hb] at hb2
    have hbb : b = b2 := Option.some.inj hb2
    rw [← hbb, hty] at ht2
    injection ht2 with htt
    rw [htt]
    exact ⟨hw1, hw2⟩
  · intro hw
    have hent : entryOf today r =
        some ⟨r.name, fmtDMY (congratulationDate tyb), fmtYMD (congratulationDate tyb)⟩ := by
      rw [entryOf_eq_if hb hty, if_pos hw]
    have hrm : r ∈ book.data.map Prod.snd := List.mem_map.mpr ⟨(name, r), hmem, rfl⟩
    refine ⟨⟨r.name, fmtDMY (congratulationDate tyb), fmtYMD (congratulationDate tyb)⟩, ?_, ?_⟩
    · rw [upcomingAux_ok hok]
      exact List.mem_filterMap.mpr ⟨r, hrm, hent⟩
    · exact hkeys (name, r) hmem

/-- C2 witness: a birthday falling today (2024-06-05) is included, and a
birthday eight days out (2024-06-13) is excluded. -/
theorem upcoming_window_iff_witness :
    (∃ e ∈ [(⟨"Ann", "05.06.2024", "2024.06.05"⟩ : UpcomingEntry)], e.name = "Ann") ∧
    ¬(∃ e ∈ ([] : List UpcomingEntry), e.name = "Ann") := by
  constructor
  · exact (upcoming_window_iff bookToday ⟨2024, 6, 5⟩
      [⟨"Ann", "05.06.2024", "2024.06.05"⟩] "Ann" ⟨"Ann", [], some ⟨1990, 6, 5⟩⟩
      ⟨1990, 6, 5⟩ ⟨2024, 6, 5⟩ rfl (by decide) (by decide) (by decide) rfl rfl).mpr
      (by decide)
  · intro hcon
    have hw := (upcoming_window_iff bookEight ⟨2024, 6, 5⟩ [] "Ann"
      ⟨"Ann", [], some ⟨1990, 6, 13⟩⟩ ⟨1990, 6, 13⟩ ⟨2024, 6, 13⟩ rfl (by decide)
      (by decide) (by decide) rfl rfl).mp hcon
    exact absurd hw (by decide)

/-- C3: every emitted entry's celebration date is the adjusted this-year
birthday shifted by two days when it falls on Saturday (weekday 5), by one
day when it falls on Sunday (weekday 6), and unshifted otherwise. -/
theorem upcoming_celebration_shift (book : AddressBook) (today : Date)
    (es : List UpcomingEntry) (e : UpcomingEntry)
    (hok : book.get_upcoming_birthdays today = .ok es) (he : e ∈ es) :
    ∃ k r b tyb, (k, r) ∈ book.data ∧ r.birthday = some b ∧
      thisYearBirthday today b = .ok tyb ∧
      e.congratulation_date = fmtYMD (if tyb.weekday = 5 then tyb.addDays 2
        else if tyb.weekday = 6 then tyb.addDays 1 else tyb) := by
  obtain ⟨k, r, b, tyb, hmem, hb, ht, _, _, hee⟩ := upcoming_mem_inv hok he
  refine ⟨k, r, b, tyb, hmem, hb, ht, ?_⟩
  rw [hee]
  rfl

/-- C3 witness: the Sunday book (this-year birthday 2024-06-09, a Sunday,
celebrated 2024-06-10 after a one-day shift). -/
theorem upcoming_celebration_shift_witness :
    ∃ k r b tyb, (k, r) ∈ bookSun.data ∧ r.birthday = some b ∧
      thisYearBirthday ⟨2024, 6, 5⟩ b = .ok tyb ∧
      (⟨"Bob", "10.06.2024", "2024.06.10"⟩ : UpcomingEntry).congratulation_date =
        fmtYMD (if tyb.weekday = 5 then tyb.addDays 2
          else if tyb.weekday = 6 then tyb.addDays 1 else tyb) :=
  upcoming_celebration_shift bookSun ⟨2024, 6, 5⟩ [⟨"Bob", "10.06.2024", "2024.06.10"⟩]
    ⟨"Bob", "10.06.2024", "2024.06.10"⟩ rfl (List.mem_singleton.mpr rfl)

/-- C4: a reachable state — add contact "Ann", then set its birthday to
Feb 29 2020 through the handler — on which `get_upcoming_birthdays`, run with
a current date in the non-leap year 2025, aborts with a date-construction
fault instead of returning a result. -/
theorem feb29_nonleap_fault :
    (AddressBook.add_contact ⟨[]⟩ "Ann" (some "1234567890")).2 = .ok "Contact added." ∧
    (handle_add_birthday ["Ann", "29.02.2020"]
      (AddressBook.add_contact ⟨[]⟩ "Ann" (some "1234567890")).1).2 = .ok "Birthday added" ∧
    ∃ e, AddressBook.get_upcoming_birthdays
      (handle_add_birthday ["Ann", "29.02.2020"]
        (AddressBook.add_contact ⟨[]⟩ "Ann" (some "1234567890")).1).1
      ⟨2025, 2, 25⟩ = .error e :=
  ⟨rfl, rfl, ⟨.valueError "day is out of range for month", rfl⟩⟩

/-- C5: constructing a `Phone` from `p` succeeds with rendered value `p`
exactly when `p` is all decimal digits of length ten, and fails with the
validation error on every other input. -/
theorem phone_validation (p : String) :
    (Phone.new p = .ok ⟨p⟩ ↔ phoneRule p) ∧
    (¬phoneRule p → Phone.new p = .error (.validation "Phone number must be 10 digits")) := by
  constructor
  · constructor
    · intro h
      by_cases hr : phoneRule p
      · exact hr
      · rw [phone_new_fail hr] at h
        cases h
    · intro hr
      exact phone_new_ok hr
  · intro hr
    exact phone_new_fail hr

/-- C5 witness: a ten-digit string is accepted verbatim; a three-digit
string is rejected with the validation error. -/
theorem phone_validation_witness :
    Phone.new "0123456789" = .ok ⟨"0123456789"⟩ ∧
    Phone.new "123" = .error (.validation "Phone number must be 10 digits") :=
  ⟨(phone_validation "0123456789").1.mpr (by decide),
   (phone_validation "123").2 (by decide)⟩

/-- C6 counterexample: `add_contact` on the non-alphabetic name "Ann1"
(absent from the book) raises the name validation error and does not return
"Contact added.", so the claim does not hold for *every* name. -/
theorem add_contact_invalid_name_cex :
    (AddressBook.add_contact ⟨[]⟩ "Ann1" none).2 =
      .error (.validation "Name must contain only letters") ∧
    (AddressBook.add_contact ⟨[]⟩ "Ann1" none).2 ≠ .ok "Contact added." :=
  ⟨rfl, by decide⟩

/-- C6 (amended): for every name passing name validation (letters only) and
every phone argument that is absent, empty, or a valid ten-digit number:
when no record exists, `add_contact` inserts a fresh record and returns
"Contact added."; when one exists it returns "Contact updated."; in both
cases a provided nonempty phone is appended to the record's phone list. -/
theorem add_contact_upsert (book : AddressBook) (name : String) (phone : Option String)
    (hname : pyIsalpha name = true)
    (hph : ∀ p, phone = some p → ¬p = "" → phoneRule p) :
    (dictGet book.data name = none →
      (book.add_contact name phone).2 = .ok "Contact added." ∧
      dictGet (book.add_contact name phone).1.data name =
        some ⟨name, providedPhones phone, none⟩) ∧
    (∀ r, dictGet book.data name = some r →
      (book.add_contact name phone).2 = .ok "Contact updated." ∧
      dictGet (book.add_contact name phone).1.data name =
        some ⟨r.name, r.phones ++ providedPhones phone, r.birthday⟩) := by
  have hrec := record_new_ok hname
  constructor
  · intro habs
    rw [add_contact_absent habs hrec phone]
    rcases phone with _ | p
    · rw [addContactPhone_none]
      exact ⟨rfl, by rw [dictGet_dictSet_self]; rfl⟩
    · by_cases hp0 : p = ""
      · rw [hp0, addContactPhone_empty]
        constructor
        · rfl
        · rw [dictGet_dictSet_self]
          rfl
      · have hpr := hph p rfl hp0
        rw [addContactPhone_valid hp0 (add_phone_ok hpr)]
        constructor
        · rfl
        · rw [dictGet_dictSet_self]
          simp [providedPhones, hp0]
  · intro r hr
    rw [add_contact_present hr phone]
    rcases phone with _ | p
    · rw [addContactPhone_none]
      refine ⟨rfl, ?_⟩
      rw [hr]
      simp [providedPhones]
    · by_cases hp0 : p = ""
      · rw [hp0, addContactPhone_empty]
        refine ⟨rfl, ?_⟩
        rw [hr]
        simp [providedPhones]
      · have hpr := hph p rfl hp0
        rw [addContactPhone_valid hp0 (add_phone_ok hpr)]
        refine ⟨rfl, ?_⟩
        rw [dictGet_dictSet_self]
        simp [providedPhones, hp0]

/-- C6 witness: adding "Ann" twice to an empty book returns "Contact added."
then "Contact updated.". -/
theorem add_contact_upsert_witness :
    (AddressBook.add_contact ⟨[]⟩ "Ann" none).2 = .ok "Contact added." ∧
    ((AddressBook.add_contact ⟨[]⟩ "Ann" none).1.add_contact "Ann" none).2 =
      .ok "Contact updated." := by
  constructor
  · exact ((add_contact_upsert ⟨[]⟩ "Ann" none (by decide) (fun p h => nomatch h)).1 rfl).1
  · exact ((add_contact_upsert (AddressBook.add_contact ⟨[]⟩ "Ann" none).1 "Ann" none
      (by decide) (fun p h => nomatch h)).2 ⟨"Ann", [], none⟩ rfl).1

/-- C7: when the phone list contains `old`, `edit_phone old new` succeeds
and replaces the first occurrence of `old` with `new`, for every string
`new`, with no re-validation. -/
theorem edit_phone_first_match (r : Record) (l1 l2 : List String) (old new : String)
    (hp : r.phones = l1 ++ old :: l2) (hfirst : old ∉ l1) :
    r.edit_phone old new = .ok ⟨r.name, l1 ++ new :: l2, r.birthday⟩ := by
  unfold Record.edit_phone
  rw [hp, editList_first hfirst]

/-- C7 witness: the invalid value "abc" is stored by `edit_phone`. -/
theorem edit_phone_first_match_witness :
    Record.edit_phone ⟨"Ann", ["0123456789"], none⟩ "0123456789" "abc" =
      .ok ⟨"Ann", ["abc"], none⟩ :=
  edit_phone_first_match ⟨"Ann", ["0123456789"], none⟩ [] [] "0123456789" "abc" rfl
    (by decide)

/-- C8: formatting a stored `Birthday` as DD.MM.YYYY via `show_birthday` and
re-parsing the text through the `Birthday` constructor yields the same
calendar date. -/
theorem birthday_roundtrip (s : String) (d : Date) (r : Record)
    (hparse : Birthday.new s = .ok d) (hr : r.birthday = some d) :
    Birthday.new r.show_birthday = .ok d := by
  have hv : d.valid = true := birthday_new_valid hparse
  have hshow : r.show_birthday = fmtDMY d := by
    unfold Record.show_birthday
    rw [hr]
  rw [hshow]
  exact birthday_parse_fmt hv

/-- C8 witness: the date 1990-03-05 parsed from "05.03.1990", stored,
formatted and re-parsed, gives back 1990-03-05. -/
theorem birthday_roundtrip_witness :
    Birthday.new "05.03.1990" = .ok ⟨1990, 3, 5⟩ ∧
    Birthday.new (Record.show_birthday ⟨"Ann", [], some ⟨1990, 3, 5⟩⟩) = .ok ⟨1990, 3, 5⟩ :=
  ⟨rfl, birthday_roundtrip "05.03.1990" ⟨1990, 3, 5⟩ ⟨"Ann", [], some ⟨1990, 3, 5⟩⟩ rfl rfl⟩

/-- C9 counterexample: the wrapped `handle_show_phone` on a missing contact
displays `str(KeyError(...))`, which is the message wrapped in single quotes,
not the message text itself. -/
theorem input_error_keyerror_cex :
    (input_error (fun p : List String × AddressBook => handle_show_phone p.1 p.2)
      (["Bob"], ⟨[]⟩)).2 = strExc (.keyError "Contact not found.") ∧
    strExc (.keyError "Contact not found.") ≠ "Contact not found." :=
  ⟨rfl, by decide⟩

/-- C9 (amended): a handler wrapped by `input_error` always returns a plain
string — no exception passes the boundary; the string is the handler's own
result, or `str(e)` of the raised exception, which is the exception's message
except for `KeyError`, whose message is displayed wrapped in single quotes. -/
theorem input_error_no_propagation {α : Type} (f : α → AddressBook × Except PyExc String)
    (x : α) :
    ∃ b s, input_error f x = (b, s) ∧ (f x).1 = b ∧
      ((f x).2 = .ok s ∨ ∃ e, (f x).2 = .error e ∧ s = strExc e) := by
  rcases hf : f x with ⟨b, r⟩
  rcases r with e | s
  · exact ⟨b, strExc e, by rw [input_error, hf], rfl, Or.inr ⟨e, rfl, rfl⟩⟩
  · exact ⟨b, s, by rw [input_error, hf], rfl, Or.inl rfl⟩

/-- C10 counterexample: with the non-alphabetic absent name "Ann1" and the
invalid phone "12", `add_contact` raises the *name* validation error and
inserts nothing; and with the empty phone string (also not ten digits) it
raises nothing at all — so the claim fails for some names and phones. -/
theorem add_contact_atomic_cex :
    ((AddressBook.add_contact ⟨[]⟩ "Ann1" (some "12")).2 =
        .error (.validation "Name must contain only letters") ∧
      dictGet (AddressBook.add_contact ⟨[]⟩ "Ann1" (some "12")).1.data "Ann1" = none) ∧
    (AddressBook.add_contact ⟨[]⟩ "Ann" (some "")).2 = .ok "Contact added." :=
  ⟨⟨rfl, rfl⟩, rfl⟩

/-- C10 (amended): for every alphabetic name absent from the book and every
nonempty phone string failing phone validation, `add_contact` raises the
phone validation error, yet the book afterwards contains a freshly inserted
record under that name with an empty phone list — the insertion performed
before phone validation is not rolled back. -/
theorem add_contact_not_atomic (book : AddressBook) (name p : String)
    (hname : pyIsalpha name = true) (habs : dictGet book.data name = none)
    (hpe : ¬p = "") (hpv : ¬phoneRule p) :
    (book.add_contact name (some p)).2 =
      .error (.validation "Phone number must be 10 digits") ∧
    dictGet (book.add_contact name (some p)).1.data name = some ⟨name, [], none⟩ := by
  rw [add_contact_absent habs (record_new_ok hname) (some p),
    addContactPhone_invalid hpe (add_phone_fail hpv)]
  exact ⟨rfl, by rw [dictGet_dictSet_self]⟩

/-- C10 witness: the absent alphabetic name "Ann" with invalid phone "12" —
the error is raised and the record is left behind with no phones. -/
theorem add_contact_not_atomic_witness :
    (AddressBook.add_contact ⟨[]⟩ "Ann" (some "12")).2 =
      .error (.validation "Phone number must be 10 digits") ∧
    dictGet (AddressBook.add_contact ⟨[]⟩ "Ann" (some "12")).1.data "Ann" =
      some ⟨"Ann", [], none⟩ :=
  add_contact_not_atomic ⟨[]⟩ "Ann" "12" (by decide) rfl (by decide) (by decide)
